import Mathlib

/-!
Shallow embedding of `src/client/src/pages/AddBusiness.tsx` (repository
momo6564/Sayrab): the record-builder state updates and the two network
pipelines (`handleSubmit` for a single record, `handleFileUpload` for the
spreadsheet bulk import).

Modelling conventions:
 * TypeScript/JavaScript objects are modelled by Lean structures.  A field
   that may be absent from the runtime object (TS `?` fields, or keys that
   `JSON.stringify` would omit because the value is `undefined`) is an
   `Option`.  The TS interface marks `isOpen`/`openToNewBusiness` as
   required booleans, but TS types are erased at runtime, so the model
   tracks runtime key presence with `Option Bool`; the component's initial
   state sets both to `some true`.
 * A JavaScript array of machine objects is `List (Option MachineForm)`:
   `none` is an array hole (reads as `undefined`, serializes to `null`),
   produced when an out-of-range index is assigned.
 * The browser/network environment (file selection, `FileReader` outcome,
   the HTTP response to a `fetch`) is passed as explicit parameters; each
   handler returns the new component state together with a `Trace` of the
   `fetch` calls it issued, the navigations it performed, the console
   messages it logged, and whether an exception escaped every handler
   (`unhandled`).
-/

namespace Sayrab

/-- One key of the `MachineForm` interface; `handleMachineChange` is only
installed on inputs named after these five fields. -/
inductive MField where
  | name
  | description
  | manufacturer
  | yearOfManufacture
  | specifications
deriving DecidableEq

/-- The `MachineForm` interface: five string fields.  `Option` tracks
runtime key presence: machines created by `addMachine` have every key
(`some ""` each); the partial objects `{...undefined, [name]: value}`
created by an out-of-range `handleMachineChange` have only one key. -/
structure MachineForm where
  name : Option String
  description : Option String
  manufacturer : Option String
  yearOfManufacture : Option String
  specifications : Option String
deriving DecidableEq

/-- `initialMachineForm`: every field present and empty. -/
def initialMachineForm : MachineForm :=
  { name := some "", description := some "", manufacturer := some "",
    yearOfManufacture := some "", specifications := some "" }

/-- The empty object `{}`, i.e. the result of spreading `undefined`. -/
def emptyMachine : MachineForm :=
  { name := none, description := none, manufacturer := none,
    yearOfManufacture := none, specifications := none }

/-- The `BusinessForm` interface.  `machinery` is a TS optional field whose
value is a JS array, hence `Option (List (Option MachineForm))`. -/
structure BusinessForm where
  name : String
  corporateId : Option String
  phone : Option String
  website : Option String
  description : Option String
  businessType : Option String
  location : Option String
  email : Option String
  isOpen : Option Bool
  openToNewBusiness : Option Bool
  machinery : Option (List (Option MachineForm))
deriving DecidableEq

/-- `initialBusinessForm` from the source: name and all optional strings
present and empty, both switches `true`, machinery the empty list. -/
def initialBusinessForm : BusinessForm :=
  { name := "", corporateId := some "", phone := some "", website := some "",
    description := some "", businessType := some "", location := some "",
    email := some "", isOpen := some true, openToNewBusiness := some true,
    machinery := some [] }

/-- `{...m, [fld]: value}` for a machine object `m`: overwrite one field. -/
def setMField (m : MachineForm) : MField → String → MachineForm
  | .name, v => { m with name := some v }
  | .description, v => { m with description := some v }
  | .manufacturer, v => { m with manufacturer := some v }
  | .yearOfManufacture, v => { m with yearOfManufacture := some v }
  | .specifications, v => { m with specifications := some v }

/-- JavaScript array read `l[i]`: the element when `i < l.length`,
`undefined` (here `none`, also the value of a hole) otherwise. -/
def jsArrayGet {β : Type} (l : List (Option β)) (i : Nat) : Option β :=
  l.getD i none

/-- JavaScript array write `l[i] = v`: overwrite in range; out of range the
array grows to length `i + 1`, the gap filled with holes. -/
def jsArraySet {β : Type} (l : List (Option β)) (i : Nat) (v : Option β) :
    List (Option β) :=
  if i < l.length then l.set i v
  else l ++ List.replicate (i - l.length) none ++ [v]

/-- `handleMachineChange(index)` applied to an event carrying field `fld`
and string `v`: copy `prev.machinery || []`, then
`newMachinery[index] = {...newMachinery[index], [fld]: v}`. -/
def handleMachineChange (index : Nat) (fld : MField) (v : String)
    (prev : BusinessForm) : BusinessForm :=
  let newMachinery := prev.machinery.getD []
  let updated := setMField ((jsArrayGet newMachinery index).getD emptyMachine) fld v
  { prev with machinery := some (jsArraySet newMachinery index (some updated)) }

/-- `addMachine`: append a fresh `{...initialMachineForm}`. -/
def addMachine (prev : BusinessForm) : BusinessForm :=
  { prev with machinery := some (prev.machinery.getD [] ++ [some initialMachineForm]) }

/-- The indexed filter `xs.filter((_, i) => i !== index)` of JavaScript on a
possibly sparse array, unrolled with the running element index `i` made
explicit (JS array indices are numbers, so the compared index is an `Int`).
Per ECMAScript, `Array.prototype.filter` never invokes the callback on a
hole (`none`) and the result array is packed, so holes are skipped and
dropped. -/
def filterNeIdxFrom {α : Type} (index : Int) : Nat → List (Option α) → List (Option α)
  | _, [] => []
  | i, none :: xs => filterNeIdxFrom index (i + 1) xs
  | i, some x :: xs =>
      if (i : Int) ≠ index then some x :: filterNeIdxFrom index (i + 1) xs
      else filterNeIdxFrom index (i + 1) xs

/-- `removeMachine(index)`: keep the elements of `prev.machinery || []`
whose position differs from `index`. -/
def removeMachine (index : Int) (prev : BusinessForm) : BusinessForm :=
  { prev with machinery := some (filterNeIdxFrom index 0 (prev.machinery.getD [])) }

/-- A two-element machinery list used as a concrete instance in witnesses. -/
def wList : List (Option MachineForm) := [some initialMachineForm, none]

/-- A business record holding `wList`, used as a concrete instance in
witnesses. -/
def wForm : BusinessForm := { initialBusinessForm with machinery := some wList }

/-- A two-element machinery list with no holes, used as a concrete instance
in witnesses. -/
def wListSolid : List (Option MachineForm) := [some initialMachineForm, some emptyMachine]

/-- A business record holding `wListSolid`, used as a concrete instance in
witnesses. -/
def wFormSolid : BusinessForm := { initialBusinessForm with machinery := some wListSolid }

/-- A reachable record whose machinery is sparse: one out-of-range
`handleMachineChange` on the initial record pads with two holes, yielding
the length-3 array with a machine object only at index 2. -/
def sparseForm : BusinessForm := handleMachineChange 2 MField.name "x" initialBusinessForm

theorem filterNeIdxFrom_id_of_lt {α : Type} (index : Int) (xs : List (Option α)) :
    ∀ k : Nat, none ∉ xs → index < (k : Int) → filterNeIdxFrom index k xs = xs := by
  induction xs with
  | nil => intro k _ _; rfl
  | cons o xs ih =>
    intro k hh hk
    cases o with
    | none => exact absurd (List.mem_cons_self none xs) hh
    | some x =>
      have hh' : none ∉ xs := fun hmem => hh (List.mem_cons_of_mem _ hmem)
      have hne : (k : Int) ≠ index := by omega
      simp only [filterNeIdxFrom, if_pos hne]
      rw [ih (k + 1) hh' (by push_cast; omega)]

theorem filterNeIdxFrom_id_of_ge {α : Type} (index : Int) (xs : List (Option α)) :
    ∀ k : Nat, none ∉ xs → (k : Int) + xs.length ≤ index → filterNeIdxFrom index k xs = xs := by
  induction xs with
  | nil => intro k _ _; rfl
  | cons o xs ih =>
    intro k hh hk
    cases o with
    | none => exact absurd (List.mem_cons_self none xs) hh
    | some x =>
      have hh' : none ∉ xs := fun hmem => hh (List.mem_cons_of_mem _ hmem)
      have hlen : (((some x :: xs : List (Option α)).length : Int)) = (xs.length : Int) + 1 := by
        simp [List.length_cons]
      have hne : (k : Int) ≠ index := by
        rw [hlen] at hk; omega
      simp only [filterNeIdxFrom, if_pos hne]
      rw [ih (k + 1) hh' (by rw [hlen] at hk; push_cast; omega)]

theorem filterNeIdxFrom_eraseIdx {α : Type} (xs : List (Option α)) :
    ∀ (k i : Nat), none ∉ xs →
      filterNeIdxFrom ((k + i : Nat) : Int) k xs = xs.eraseIdx i := by
  induction xs with
  | nil => intro k i _; rfl
  | cons o xs ih =>
    intro k i hh
    cases o with
    | none => exact absurd (List.mem_cons_self none xs) hh
    | some x =>
      have hh' : none ∉ xs := fun hmem => hh (List.mem_cons_of_mem _ hmem)
      cases i with
      | zero =>
        have heq : ¬ ((k : Int) ≠ ((k + 0 : Nat) : Int)) := by push_cast; omega
        simp only [filterNeIdxFrom, if_neg heq]
        rw [filterNeIdxFrom_id_of_lt _ _ (k + 1) hh' (by push_cast; omega)]
        rfl
      | succ i =>
        have hne : (k : Int) ≠ ((k + (i + 1) : Nat) : Int) := by push_cast; omega
        simp only [filterNeIdxFrom, if_pos hne]
        have hcast : ((k + (i + 1) : Nat) : Int) = (((k + 1) + i : Nat) : Int) := by
          push_cast; omega
        rw [hcast, ih (k + 1) i hh']
        rfl

/-! ## JSON serialization

`JSON.stringify`, modelled for the value shapes this component serializes:
strings, booleans, objects whose absent (`undefined`) keys are omitted,
arrays whose holes become `null`.  Output uses the compact separators of
`JSON.stringify` (no whitespace). -/

/-- Escape the characters `JSON.stringify` escapes that can occur in this
development's values: backslash and double quote. -/
def escapeJson (s : String) : String :=
  ⟨s.data.foldr (fun c acc =>
      if c = '\\' then '\\' :: '\\' :: acc
      else if c = '\"' then '\\' :: '\"' :: acc
      else c :: acc) []⟩

/-- A JSON string literal. -/
def jstr (s : String) : String := "\"" ++ escapeJson s ++ "\""

/-- One `"key":value` member of a JSON object. -/
def jfield (k : String) (v : String) : String := jstr k ++ ":" ++ v

/-- A JSON object from its rendered members. -/
def jobj (fields : List String) : String :=
  "\x7b" ++ String.intercalate "," fields ++ "\x7d"

/-- A JSON array from its rendered elements. -/
def jarr (elems : List String) : String :=
  "[" ++ String.intercalate "," elems ++ "]"

/-- A JSON boolean. -/
def jbool : Bool → String
  | true => "true"
  | false => "false"

/-- A string-valued object member, omitted when the key is absent. -/
def optStrField (k : String) : Option String → List String
  | none => []
  | some v => [jfield k (jstr v)]

/-- A boolean-valued object member, omitted when the key is absent. -/
def optBoolField (k : String) : Option Bool → List String
  | none => []
  | some b => [jfield k (jbool b)]

/-- Serialize one element of the machinery array: a hole becomes `null`, a
machine object serializes its present keys in interface order. -/
def stringifyMachine : Option MachineForm → String
  | none => "null"
  | some m =>
      jobj (optStrField "name" m.name ++ optStrField "description" m.description
        ++ optStrField "manufacturer" m.manufacturer
        ++ optStrField "yearOfManufacture" m.yearOfManufacture
        ++ optStrField "specifications" m.specifications)

/-- `JSON.stringify(formData)`: the keys in the insertion order of
`initialBusinessForm`, absent keys omitted. -/
def stringifyBusinessForm (f : BusinessForm) : String :=
  jobj ([jfield "name" (jstr f.name)]
    ++ optStrField "corporateId" f.corporateId
    ++ optStrField "phone" f.phone
    ++ optStrField "website" f.website
    ++ optStrField "description" f.description
    ++ optStrField "businessType" f.businessType
    ++ optStrField "location" f.location
    ++ optStrField "email" f.email
    ++ optBoolField "isOpen" f.isOpen
    ++ optBoolField "openToNewBusiness" f.openToNewBusiness
    ++ (match f.machinery with
        | none => []
        | some l => [jfield "machinery" (jarr (l.map stringifyMachine))]))

/-- A row-object produced by the spreadsheet conversion: the record pairing
headers with that row's cells, in column order. -/
def stringifyRow (r : List (String × String)) : String :=
  jobj (r.map fun p => jfield p.1 (jstr p.2))

/-- `JSON.stringify({ businesses: jsonData })`. -/
def stringifyBulkBody (rows : List (List (String × String))) : String :=
  jobj [jfield "businesses" (jarr (rows.map stringifyRow))]

/-! ## Spreadsheet conversion

Modelled from the spec: the `xlsx` library (`XLSX.read` followed by
`XLSX.utils.sheet_to_json` on the first sheet) is an external dependency
not part of this repository.  Per the spec, the first row's cell values
become object keys and each later row becomes an object mapping each
header to that row's cell value for matching columns, a row omitting the
key for a column in which it has no data. -/

/-- Pair one data row with the header row by column position, skipping
columns where either the header or the cell is missing. -/
def rowToObject (headers : List (Option String)) (cells : List (Option String)) :
    List (String × String) :=
  (headers.zip cells).filterMap fun p =>
    match p with
    | (some h, some c) => some (h, c)
    | _ => none

/-- `XLSX.utils.sheet_to_json` on a sheet given as its grid of cells. -/
def sheet_to_json : List (List (Option String)) → List (List (String × String))
  | [] => []
  | header :: dataRows => dataRows.map (rowToObject header)

/-! ## Component state, environment and effect traces -/

/-- The decoded content of a selected file: either `XLSX.read` succeeds and
the workbook's first sheet is the given cell grid, or the parse throws. -/
inductive FileData where
  | sheet (grid : List (List (Option String)))
  | malformed
deriving DecidableEq

/-- The outcome of the `FileReader` on the selected file: `onerror` fires,
or `onload` fires with the decoded content. -/
inductive ReadOutcome where
  | readError
  | readSuccess (d : FileData)
deriving DecidableEq

/-- The environment's answer to a `fetch` call: the promise rejects
(network error), or an HTTP response arrives with `response.ok = ok` and
`response.json()` succeeding iff `jsonOk`. -/
inductive FetchOutcome where
  | networkError
  | response (ok : Bool) (jsonOk : Bool)
deriving DecidableEq

/-- One `fetch` call issued by the component, always `POST` with JSON
content type; `base` is the configured API base URL and `path` the
endpoint path appended to it. -/
structure Request where
  base : String
  path : String
  body : String
deriving DecidableEq

/-- The component's mutable state: the `formData` and `importError` hooks. -/
structure CompState where
  formData : BusinessForm
  importError : Option String
deriving DecidableEq

/-- The externally visible effects of running one handler: `fetch` calls
issued, routes navigated to, console messages logged (identified by their
fixed first argument), and whether an exception escaped every handler in
the component (an unhandled rejection). -/
structure Trace where
  posts : List Request
  navs : List String
  logs : List String
  unhandled : Bool
deriving DecidableEq

/-- The trace of a handler run with no external effect. -/
def emptyTrace : Trace := ⟨[], [], [], false⟩

/-! ## The two handlers -/

/-- `handleSubmit`: POST `JSON.stringify(formData)` to
`{apiUrl}/api/businesses`.  On `response.ok` navigate to `/businesses`;
otherwise the thrown error is caught and only logged — the state (in
particular `importError`) is never written on this path. -/
def handleSubmit (apiUrl : String) (s : CompState) (outcome : FetchOutcome) :
    CompState × Trace :=
  let req : Request := ⟨apiUrl, "/api/businesses", stringifyBusinessForm s.formData⟩
  match outcome with
  | .response true _ => (s, ⟨[req], ["/businesses"], [], false⟩)
  | .response false _ => (s, ⟨[req], [], ["Error creating business:"], false⟩)
  | .networkError => (s, ⟨[req], [], ["Error creating business:"], false⟩)

/-- The import-failure message set by the inner catch of `handleFileUpload`. -/
def importFailureMsg : String :=
  "Failed to import businesses. Please check your spreadsheet format."

/-- `handleFileUpload`: clear `importError`; stop if no file was selected.
A read failure runs `onerror`, which sets `importError` to
`"Error reading file"` and issues no request.  On a successful read the
async `onload` callback decodes the workbook — if the parse throws, the
exception escapes `onload` uncaught (the surrounding try/catch of
`handleFileUpload` already returned before `onload` fired), so no state is
written and `unhandled` is recorded.  Otherwise the first sheet's rows are
converted and posted to `{apiUrl}/api/businesses/bulk`; any failure of the
fetch, a non-ok status, or a body-parse failure lands in the inner catch,
which sets the import-failure message; on full success the parsed body is
logged and the component navigates to `/businesses`. -/
def handleFileUpload (apiUrl : String) (s : CompState)
    (file : Option ReadOutcome) (bulk : FetchOutcome) : CompState × Trace :=
  let s1 : CompState := { s with importError := none }
  match file with
  | none => (s1, emptyTrace)
  | some .readError => ({ s1 with importError := some "Error reading file" }, emptyTrace)
  | some (.readSuccess .malformed) => (s1, { emptyTrace with unhandled := true })
  | some (.readSuccess (.sheet grid)) =>
      let jsonData := sheet_to_json grid
      let req : Request := ⟨apiUrl, "/api/businesses/bulk", stringifyBulkBody jsonData⟩
      match bulk with
      | .response true true =>
          (s1, ⟨[req], ["/businesses"], ["Import successful:"], false⟩)
      | .response true false =>
          ({ s1 with importError := some importFailureMsg }, ⟨[req], [], ["Import error:"], false⟩)
      | .response false _ =>
          ({ s1 with importError := some importFailureMsg }, ⟨[req], [], ["Import error:"], false⟩)
      | .networkError =>
          ({ s1 with importError := some importFailureMsg }, ⟨[req], [], ["Import error:"], false⟩)

/-- The record the single-record submit claim posits: a runtime object with
only the key `name`, valued `"Acme"`. -/
def acmeForm : BusinessForm :=
  { name := "Acme", corporateId := none, phone := none, website := none,
    description := none, businessType := none, location := none, email := none,
    isOpen := none, openToNewBusiness := none, machinery := none }

theorem jsArraySet_length {β : Type} (l : List (Option β)) (i : Nat) (v : Option β) :
    (jsArraySet l i v).length = if i < l.length then l.length else i + 1 := by
  unfold jsArraySet
  split
  · simp [List.length_set]
  · simp only [List.length_append, List.length_replicate, List.length_singleton]
    omega

/-! ## Claim theorems -/

/-- Claim C1: for a spreadsheet whose first sheet has the header row
name, phone and the single data row with the shop name (which contains an
apostrophe) and the phone 555-1234, the import pipeline produces exactly
the row-object pairing each header with that cell, and issues exactly one
POST, to the bulk endpoint, whose JSON body is the businesses envelope
around exactly that row-object. -/
theorem bulkImport_concrete_row_and_post (apiUrl : String) (s : CompState)
    (bulk : FetchOutcome) :
    sheet_to_json [[some "name", some "phone"], [some "Joe\x27s Shop", some "555-1234"]]
      = [[("name", "Joe\x27s Shop"), ("phone", "555-1234")]]
    ∧ (handleFileUpload apiUrl s
        (some (.readSuccess (.sheet [[some "name", some "phone"],
          [some "Joe\x27s Shop", some "555-1234"]]))) bulk).2.posts
      = [⟨apiUrl, "/api/businesses/bulk",
          "\x7b\"businesses\":[\x7b\"name\":\"Joe\x27s Shop\",\"phone\":\"555-1234\"\x7d]\x7d"⟩] := by
  refine ⟨rfl, ?_⟩
  rcases bulk with _ | ⟨ok, jsonOk⟩
  · rfl
  · cases ok <;> cases jsonOk <;> rfl

/-- Claim C2 (counterexample): on the reachable sparse machinery list of
length 3 held by sparseForm (two holes, then one machine object, produced
by an out-of-range handleMachineChange), JavaScript filter skips the holes
and drops them from the packed result, so removing index 1 yields a list
of length 1, not length n - 1 = 2 and not the original with one position
deleted. -/
theorem removeMachine_sparse_cex :
    (sparseForm.machinery.getD []).length = 3
    ∧ ((removeMachine 1 sparseForm).machinery.getD []).length = 1 :=
  ⟨rfl, rfl⟩

/-- Claim C2 (amended): for a machinery list of length n containing no
holes — the shape of every list built by addMachine — and an index i with
0 le i lt n, removeMachine i yields the list with the element at position
i deleted (order preserved), of length n - 1; every other field of the
business record is unchanged. -/
theorem removeMachine_inRange_eraseIdx (prev : BusinessForm)
    (l : List (Option MachineForm)) (i : Nat)
    (hm : prev.machinery = some l) (hh : none ∉ l) (hi : i < l.length) :
    removeMachine (i : Int) prev = { prev with machinery := some (l.eraseIdx i) }
    ∧ (l.eraseIdx i).length = l.length - 1 := by
  constructor
  · have key : filterNeIdxFrom (i : Int) 0 l = l.eraseIdx i := by
      have h := filterNeIdxFrom_eraseIdx l 0 i hh
      simpa using h
    unfold removeMachine
    rw [hm]
    simp only [Option.getD_some]
    rw [key]
  · rw [List.length_eraseIdx, if_pos hi]

theorem removeMachine_inRange_eraseIdx_witness :
    removeMachine ((0 : Nat) : Int) wFormSolid
        = { wFormSolid with machinery := some (wListSolid.eraseIdx 0) }
    ∧ (wListSolid.eraseIdx 0).length = wListSolid.length - 1 :=
  removeMachine_inRange_eraseIdx wFormSolid wListSolid 0 rfl (by decide) (by decide)

/-- Claim C3 (counterexample): handleMachineChange at an index that does
not reference an existing element does grow the machinery list — on the
initial record (empty machinery) at index 0 the list length becomes 1. -/
theorem machineChange_outOfRange_grows_cex :
    ((handleMachineChange 0 MField.name "x" initialBusinessForm).machinery.getD []).length = 1
    ∧ (initialBusinessForm.machinery.getD []).length = 0 :=
  ⟨rfl, rfl⟩

/-- Claim C3 (amended): for an index referencing an existing element,
handleMachineChange preserves the machinery list length and only replaces
that element, overwriting the one named field; for an index at or beyond
the length, JavaScript array assignment grows the list to index + 1
(padding with holes). -/
theorem machineChange_length_spec (prev : BusinessForm)
    (l : List (Option MachineForm)) (index : Nat) (fld : MField) (v : String)
    (hm : prev.machinery = some l) :
    ((handleMachineChange index fld v prev).machinery.getD []).length
        = (if index < l.length then l.length else index + 1)
    ∧ (index < l.length →
        handleMachineChange index fld v prev
          = { prev with machinery := some (l.set index (some (setMField ((jsArrayGet l index).getD emptyMachine) fld v))) }) := by
  unfold handleMachineChange
  rw [hm]
  simp only [Option.getD_some]
  constructor
  · simp [jsArraySet_length]
  · intro h
    simp [jsArraySet, h]

theorem machineChange_length_spec_witness :
    ((handleMachineChange 0 MField.name "x" wForm).machinery.getD []).length
        = (if 0 < wList.length then wList.length else 0 + 1)
    ∧ (0 < wList.length →
        handleMachineChange 0 MField.name "x" wForm
          = { wForm with machinery := some (wList.set 0 (some (setMField ((jsArrayGet wList 0).getD emptyMachine) MField.name "x"))) }) :=
  machineChange_length_spec wForm wList 0 MField.name "x" rfl

/-- Claim C4 (code bug, evaluated): when the workbook decode throws inside
the async onload callback, the outer try/catch of handleFileUpload has
already returned, so the exception escapes uncaught: the error slot stays
cleared — in particular it is never set to "Error processing file" — and
no request is issued. -/
theorem decodeThrow_leaves_error_unset :
    (handleFileUpload "http://localhost:5000" ⟨initialBusinessForm, some "old"⟩
        (some (.readSuccess .malformed)) .networkError).1.importError = none
    ∧ (handleFileUpload "http://localhost:5000" ⟨initialBusinessForm, some "old"⟩
        (some (.readSuccess .malformed)) .networkError).1.importError
        ≠ some "Error processing file"
    ∧ (handleFileUpload "http://localhost:5000" ⟨initialBusinessForm, some "old"⟩
        (some (.readSuccess .malformed)) .networkError).2.posts = []
    ∧ (handleFileUpload "http://localhost:5000" ⟨initialBusinessForm, some "old"⟩
        (some (.readSuccess .malformed)) .networkError).2.unhandled = true :=
  ⟨rfl, by decide, rfl, rfl⟩

/-- Claim C5: when the file read fails, the handler sets the error message
to exactly "Error reading file" and produces an empty effect trace — in
particular it issues no network request. -/
theorem readFailure_sets_message_and_no_request (apiUrl : String) (s : CompState)
    (bulk : FetchOutcome) :
    handleFileUpload apiUrl s (some .readError) bulk
      = ({ s with importError := some "Error reading file" }, emptyTrace) := rfl

/-- Claim C6: when the bulk endpoint answers with a non-success status, or
the success body fails to parse, the import pipeline sets the error
message to the spreadsheet-format message and performs no navigation. -/
theorem bulkFailure_sets_message_no_nav (apiUrl : String) (s : CompState)
    (grid : List (List (Option String))) (bulk : FetchOutcome)
    (h : (∃ jsonOk, bulk = .response false jsonOk) ∨ bulk = .response true false) :
    (handleFileUpload apiUrl s (some (.readSuccess (.sheet grid))) bulk).1.importError
        = some "Failed to import businesses. Please check your spreadsheet format."
    ∧ (handleFileUpload apiUrl s (some (.readSuccess (.sheet grid))) bulk).2.navs = [] := by
  rcases h with ⟨j, rfl⟩ | rfl
  · exact ⟨rfl, rfl⟩
  · exact ⟨rfl, rfl⟩

theorem bulkFailure_sets_message_no_nav_witness :
    (handleFileUpload "http://localhost:5000" ⟨initialBusinessForm, none⟩
        (some (.readSuccess (.sheet []))) (.response false true)).1.importError
        = some "Failed to import businesses. Please check your spreadsheet format."
    ∧ (handleFileUpload "http://localhost:5000" ⟨initialBusinessForm, none⟩
        (some (.readSuccess (.sheet []))) (.response false true)).2.navs = [] :=
  bulkFailure_sets_message_no_nav "http://localhost:5000" ⟨initialBusinessForm, none⟩ []
    (.response false true) (Or.inl ⟨true, rfl⟩)

/-- Claim C7: a successful submit of the record whose only key is name,
valued Acme, issues exactly one POST, to the businesses endpoint, with
exactly that JSON body, then navigates to the listing route; no request
targets the bulk endpoint. -/
theorem submit_success_single_post_navigates (apiUrl : String) (s : CompState)
    (jsonOk : Bool) (h : s.formData = acmeForm) :
    handleSubmit apiUrl s (.response true jsonOk)
      = (s, ⟨[⟨apiUrl, "/api/businesses", "\x7b\"name\":\"Acme\"\x7d"⟩],
          ["/businesses"], [], false⟩)
    ∧ ∀ r ∈ (handleSubmit apiUrl s (.response true jsonOk)).2.posts,
        r.path ≠ "/api/businesses/bulk" := by
  have hb : stringifyBusinessForm s.formData = "\x7b\"name\":\"Acme\"\x7d" := by
    rw [h]; rfl
  have hp : handleSubmit apiUrl s (.response true jsonOk)
      = (s, ⟨[⟨apiUrl, "/api/businesses", stringifyBusinessForm s.formData⟩],
          ["/businesses"], [], false⟩) := rfl
  constructor
  · rw [hp, hb]
  · intro r hr
    rw [hp] at hr
    simp only [List.mem_singleton] at hr
    subst hr
    show ("/api/businesses" : String) ≠ "/api/businesses/bulk"
    decide

theorem submit_success_single_post_navigates_witness :
    handleSubmit "http://localhost:5000" ⟨acmeForm, none⟩ (.response true true)
      = (⟨acmeForm, none⟩, ⟨[⟨"http://localhost:5000", "/api/businesses",
          "\x7b\"name\":\"Acme\"\x7d"⟩], ["/businesses"], [], false⟩)
    ∧ ∀ r ∈ (handleSubmit "http://localhost:5000" ⟨acmeForm, none⟩
          (.response true true)).2.posts,
        r.path ≠ "/api/businesses/bulk" :=
  submit_success_single_post_navigates "http://localhost:5000" ⟨acmeForm, none⟩ true rfl

/-- Claim C8: a failing single-record submit (non-success status or
network error) leaves the component state — in particular the
error-message slot — unchanged, performs no navigation, and only logs. -/
theorem submit_failure_logged_only (apiUrl : String) (s : CompState)
    (outcome : FetchOutcome)
    (h : outcome = .networkError ∨ ∃ jsonOk, outcome = .response false jsonOk) :
    handleSubmit apiUrl s outcome
      = (s, ⟨[⟨apiUrl, "/api/businesses", stringifyBusinessForm s.formData⟩], [],
          ["Error creating business:"], false⟩) := by
  rcases h with rfl | ⟨j, rfl⟩ <;> rfl

theorem submit_failure_logged_only_witness :
    handleSubmit "http://localhost:5000" ⟨initialBusinessForm, none⟩ .networkError
      = (⟨initialBusinessForm, none⟩, ⟨[⟨"http://localhost:5000", "/api/businesses",
          stringifyBusinessForm initialBusinessForm⟩], [],
          ["Error creating business:"], false⟩) :=
  submit_failure_logged_only "http://localhost:5000" ⟨initialBusinessForm, none⟩
    .networkError (Or.inl rfl)

/-- Claim C9: running the import pipeline never changes the in-memory
business record (in particular its machinery list), whatever the selected
file, its read outcome and the network's answer. -/
theorem upload_preserves_record (apiUrl : String) (s : CompState)
    (file : Option ReadOutcome) (bulk : FetchOutcome) :
    (handleFileUpload apiUrl s file bulk).1.formData = s.formData := by
  rcases file with _ | ro
  · rfl
  · rcases ro with _ | d
    · rfl
    · rcases d with grid | _
      · rcases bulk with _ | ⟨ok, jsonOk⟩
        · rfl
        · cases ok <;> cases jsonOk <;> rfl
      · rfl

/-- Claim C10 (counterexample): on the reachable sparse machinery list of
sparseForm (length 3: two holes, then one machine object), removal by the
out-of-range index 5 is not the identity: JavaScript filter compacts the
holes away, shrinking the list to length 1. -/
theorem removeMachine_sparse_not_identity_cex :
    removeMachine 5 sparseForm ≠ sparseForm
    ∧ ((removeMachine 5 sparseForm).machinery.getD []).length = 1 :=
  ⟨by decide, rfl⟩

/-- Claim C10 (amended): for a machinery list containing no holes — the
shape of every list built by addMachine — removeMachine at an index
outside the list's range (negative or at least the length) returns the
record, in particular the machinery list, unchanged. -/
theorem removeMachine_outOfRange_identity (prev : BusinessForm)
    (l : List (Option MachineForm)) (index : Int)
    (hm : prev.machinery = some l) (hh : none ∉ l)
    (h : index < 0 ∨ (l.length : Int) ≤ index) :
    removeMachine index prev = prev := by
  have key : filterNeIdxFrom index 0 l = l := by
    rcases h with h | h
    · exact filterNeIdxFrom_id_of_lt index l 0 hh (by exact_mod_cast h)
    · exact filterNeIdxFrom_id_of_ge index l 0 hh (by simpa using h)
  unfold removeMachine
  rw [hm]
  simp only [Option.getD_some]
  rw [key, ← hm]

theorem removeMachine_outOfRange_identity_witness :
    removeMachine (-1) initialBusinessForm = initialBusinessForm :=
  removeMachine_outOfRange_identity initialBusinessForm [] (-1) rfl (by decide)
    (Or.inl (by decide))

end Sayrab
